import Mathlib

/-!
# Verification of cdx-central (src/main.go)

A shallow embedding of the Go program `cdx-central`, a CLI utility that
crawls Maven Central's search API for artifacts publishing CycloneDX SBOMs,
expands each artifact into its qualifying versions, downloads each SBOM,
filters by a minimum component count, and writes accepted documents to disk.

The embedding models:
* the data model (`Artifact`, `GAV`, version-search documents);
* the `contains` helper and the classifier filter inside `searchVersions`;
* the offset-pagination loop shared by `collectArtifacts` and
  `collectVersions` (fuel-indexed, with a trace of the offsets requested);
* the post-HTTP logic of `downloadSBOM` (decode, component-count filter,
  file write), with the HTTP response and the external CycloneDX decoder
  abstracted as explicit parameters;
* the status-code handling of `searchArtifacts`/`searchVersions`;
* a sequentialised model of `main`'s coordinator (collect artifacts, then
  per artifact collect versions and download each), capturing the
  fatal-vs-logged error severity split;
* the `sync.WaitGroup` counter protocol used by `main`.

Network and filesystem effects are represented by explicit data: the server
is a function from (rows, start) to a page, and a file write is recorded in
the result value rather than performed.
-/

namespace CdxCentral

/-- `type Artifact struct` (src/main.go lines 88-92). -/
structure Artifact where
  groupID : String
  artifactID : String
  latestVersion : String
  deriving Repr, DecidableEq

/-- `type GAV struct` (src/main.go lines 98-102). -/
structure GAV where
  groupID : String
  artifactID : String
  version : String
  deriving Repr, DecidableEq

/-- One document of a `VersionSearchResponse` (src/main.go lines 76-86):
group, artifact, version, packaging, and the list of extension-classifier
tags (`ec`). -/
structure VersionDoc where
  g : String
  a : String
  v : String
  p : String
  ec : List String
  deriving Repr, DecidableEq

/-- One document of an `ArtifactSearchResponse` (src/main.go lines 66-74). -/
structure ArtifactDoc where
  groupID : String
  artifactID : String
  latestVersion : String
  deriving Repr, DecidableEq

/-- The field-by-field copy from a search document into an `Artifact`
(src/main.go lines 150-157). -/
def artifactOfDoc (d : ArtifactDoc) : Artifact :=
  { groupID := d.groupID
    artifactID := d.artifactID
    latestVersion := d.latestVersion }

/-- `func contains(haystack []string, needle string) bool`
(src/main.go lines 267-275): linear scan, `true` on the first equal
candidate, `false` once the loop is exhausted. -/
def contains (haystack : List String) (needle : String) : Bool :=
  match haystack with
  | [] => false
  | candidate :: rest => if candidate = needle then true else contains rest needle

/-- The SBOM classifier tag the program recognises
(src/main.go line 207). -/
def cdxClassifier : String := "-cyclonedx.json"

/-- The GAV a version-search document is turned into when it qualifies
(src/main.go lines 208-212). -/
def gavOfDoc (d : VersionDoc) : GAV :=
  { groupID := d.g, artifactID := d.a, version := d.v }

/-- The per-page filter inside `searchVersions` (src/main.go lines 204-216):
walk the decoded documents in order, and append the GAV of every document
whose `ec` list contains `"-cyclonedx.json"`. -/
def searchVersionsFilter (docs : List VersionDoc) : List GAV :=
  match docs with
  | [] => []
  | doc :: rest =>
    if contains doc.ec cdxClassifier
    then gavOfDoc doc :: searchVersionsFilter rest
    else searchVersionsFilter rest

/-! ## HTTP responses, the CycloneDX document, and `downloadSBOM` -/

/-- An HTTP response as the program observes it: a status code and the raw
body bytes (modelled as a `String`). -/
structure HTTPResponse where
  statusCode : Nat
  body : String
  deriving Repr, DecidableEq

/-- A component entry of a CycloneDX BOM. The program interprets no field
of a component; only how many there are matters (src/main.go lines 243-246),
so a component is modelled as an opaque token. -/
structure Component where
  data : String
  deriving Repr, DecidableEq

/-- The parts of `cyclonedx.BOM` the program reads: the optional component
list (`sbom.Components` may be nil). -/
structure BOM where
  components : Option (List Component)
  deriving Repr, DecidableEq

/-- The component count `downloadSBOM` computes (src/main.go lines 243-246):
`0` when the component list is nil, its length otherwise. Go's `int` is
modelled as `Int` (the count itself is a list length, hence non-negative). -/
def componentCount (sbom : BOM) : Int :=
  match sbom.components with
  | none => 0
  | some cs => cs.length

/-- Outcome of one `downloadSBOM` call. `err` is a non-nil error return;
`discarded` is the nil return taken when the component count is below the
threshold (no file side effect); `written path contents` is the nil return
reached after creating the file at `path` and writing `contents` to it. -/
inductive DownloadResult where
  | err (msg : String)
  | discarded
  | written (path : String) (contents : String)
  deriving Repr, DecidableEq

/-- Whether a `downloadSBOM` outcome is a non-nil error return. -/
def DownloadResult.isError : DownloadResult → Bool
  | .err _ => true
  | .discarded => false
  | .written _ _ => false

/-- The file side effect of a `downloadSBOM` outcome: the path and bytes
written, or `none` when no file was created. -/
def DownloadResult.writes : DownloadResult → Option (String × String)
  | .err _ => none
  | .discarded => none
  | .written path contents => some (path, contents)

/-- Model of Go's two-argument `filepath.Join` (src/main.go line 253) for the
cleaned paths that occur here: concatenation with a single separator, or the
name alone when the directory is empty. -/
def filepathJoin (dir name : String) : String :=
  if dir = "" then name else dir ++ "/" ++ name

/-- The output file name `fmt.Sprintf("%s_%s_%s.cdx.json", ...)`
(src/main.go line 252). -/
def sbomFileName (gav : GAV) : String :=
  gav.groupID ++ "_" ++ gav.artifactID ++ "_" ++ gav.version ++ ".cdx.json"

/-- The post-request logic of `func downloadSBOM` (src/main.go lines 226-264):
read the whole body, decode it as a CycloneDX BOM (the external
`cyclonedx-go` decoder is the parameter `decodeBOM`; a decode failure is a
returned error), compute the component count (nil list counts as 0), discard
the document when the count is below `minComponents`, and otherwise write the
raw body bytes to `<outputDir>/<group>_<artifact>_<version>.cdx.json`.
The function never inspects `resp.statusCode` — the source has no status
check between `http.DefaultClient.Do` and `io.ReadAll`. -/
def downloadSBOM (decodeBOM : String → Option BOM) (resp : HTTPResponse)
    (gav : GAV) (minComponents : Int) (outputDir : String) : DownloadResult :=
  let resBytes := resp.body
  match decodeBOM resBytes with
  | none => .err "failed to decode sbom"
  | some sbom =>
    if componentCount sbom < minComponents then
      .discarded
    else
      .written (filepathJoin outputDir (sbomFileName gav)) resBytes

/-- The status-code handling shared by `searchArtifacts`
(src/main.go lines 140-148) and `searchVersions` (lines 194-201): a status
other than 200 (`http.StatusOK`) yields an error before the body is decoded;
otherwise the body is JSON-decoded (decoder abstracted as `decodeBody`) and a
decode failure is a returned error. -/
def searchRespond {α : Type} (decodeBody : String → Option α)
    (resp : HTTPResponse) : Except String α :=
  if resp.statusCode ≠ 200 then
    .error ("unexpected status code: " ++ toString resp.statusCode)
  else
    match decodeBody resp.body with
    | none => .error "failed to decode response"
    | some docs => .ok docs

/-- The response handling of `searchArtifacts` (src/main.go lines 134-159):
check the status, decode the artifact documents, and copy each into an
`Artifact`. -/
def searchArtifactsRespond (decodeDocs : String → Option (List ArtifactDoc))
    (resp : HTTPResponse) : Except String (List Artifact) :=
  (searchRespond decodeDocs resp).map (List.map artifactOfDoc)

/-- The response handling of `searchVersions` (src/main.go lines 188-217):
check the status, decode the version documents, and keep the GAVs of those
carrying the `"-cyclonedx.json"` classifier. -/
def searchVersionsRespond (decodeDocs : String → Option (List VersionDoc))
    (resp : HTTPResponse) : Except String (List GAV) :=
  (searchRespond decodeDocs resp).map searchVersionsFilter

/-! ## The offset-pagination loop of `collectArtifacts` / `collectVersions` -/

/-- Outcome of a collect function. `fatal msg` models the `log.Fatalf` call
inside the loop (the process aborts; nothing is returned); `ret xs err`
models the Go return `(xs, err)`. The only `return` statement in either
collect function is `return …, nil`, but the type keeps the error slot so
that this fact is provable rather than built in. -/
inductive CollectResult (α : Type) where
  | fatal (msg : String)
  | ret (xs : List α) (err : Option String)
  deriving Repr, DecidableEq

/-- The pagination loop shared by `collectArtifacts` (src/main.go
lines 108-125) and `collectVersions` (lines 162-179): starting at offset
`start` with accumulator `acc`, call `search rows start`; on error abort
fatally; on an empty page return the accumulator (with a nil error); on a
non-empty page append it, advance the offset by the page's length, and loop.
`fuel` bounds the number of iterations (the Go loop is unbounded; `none`
means the fuel ran out before the loop terminated). `offs` accumulates the
trace of offsets at which requests were issued. -/
def collectLoop {α : Type} (search : Nat → Nat → Except String (List α))
    (rows : Nat) :
    Nat → Nat → List α → List Nat → Option (CollectResult α × List Nat)
  | 0, _, _, _ => none
  | fuel + 1, start, acc, offs =>
    match search rows start with
    | .error e => some (.fatal e, offs ++ [start])
    | .ok g =>
      if g.length = 0 then some (.ret acc none, offs ++ [start])
      else collectLoop search rows fuel (start + g.length) (acc ++ g) (offs ++ [start])

/-- `func collectArtifacts` (src/main.go lines 108-125): the pagination loop
over `searchArtifacts` with the hard-coded page size 150, starting at
offset 0 with an empty accumulator. -/
def collectArtifacts (search : Nat → Nat → Except String (List Artifact))
    (fuel : Nat) : Option (CollectResult Artifact × List Nat) :=
  collectLoop search 150 fuel 0 [] []

/-- `func collectVersions` (src/main.go lines 162-179): the same pagination
loop, page size 150, over `searchVersions` — whose page result is the
classifier-filtered list `searchVersionsFilter docs`, not the raw server
page. The loop therefore advances its offset by the length of the FILTERED
page and stops on the first page whose filtered result is empty; this is
exactly what the source does (`start += len(g)` at line 175 with `g` the
`[]GAV` returned by `searchVersions`). -/
def collectVersions (serverDocs : Nat → Nat → Except String (List VersionDoc))
    (fuel : Nat) : Option (CollectResult GAV × List Nat) :=
  collectLoop
    (fun rows start =>
      match serverDocs rows start with
      | .error e => .error e
      | .ok docs => .ok (searchVersionsFilter docs))
    150 fuel 0 [] []

/-- The server-side model of a fixed dataset behind offset pagination: the
page at offset `start` with page size `rows` is the next `rows` records of
the full result set. -/
def pageOf {α : Type} (full : List α) (rows start : Nat) : List α :=
  (full.drop start).take rows

/-- A well-behaved search server over a fixed dataset: every request
succeeds and returns `pageOf`. -/
def serverOf {α : Type} (full : List α) :
    Nat → Nat → Except String (List α) :=
  fun rows start => .ok (pageOf full rows start)

/-! ## The coordinator (`main`) and its error-severity split -/

/-- Outcome of a whole run. `fatal` models `log.Fatalf` (process terminates
immediately); `completed processed` models a normal exit, with `processed`
the ordered list of download attempts and their outcomes. -/
inductive RunOutcome where
  | fatal (msg : String)
  | completed (processed : List (GAV × DownloadResult))
  deriving Repr, DecidableEq

/-- The worker body (src/main.go lines 37-49), sequentialised over the
artifact list: for each artifact, collect its versions — a fatal inside
`collectVersions` or a non-nil returned error (`log.Fatalf` at line 40)
terminates the process — then download every version in order. A download
error is only logged (line 46); the loop continues with the next version and
the next artifact regardless of the download outcome. -/
def runWorkers (collectV : Artifact → CollectResult GAV)
    (download : GAV → DownloadResult) :
    List Artifact → List (GAV × DownloadResult) → RunOutcome
  | [], acc => .completed acc
  | artifact :: rest, acc =>
    match collectV artifact with
    | .fatal e => .fatal e
    | .ret versions err =>
      match err with
      | some e => .fatal e
      | none =>
        runWorkers collectV download rest
          (acc ++ versions.map fun v => (v, download v))

/-- The coordinator `main` (src/main.go lines 30-64), sequentialised:
collect all artifacts — a fatal inside `collectArtifacts` or a non-nil
returned error (`log.Fatalf` at line 55) terminates the process — then have
the workers process every artifact. -/
def runMain (collectA : CollectResult Artifact)
    (collectV : Artifact → CollectResult GAV)
    (download : GAV → DownloadResult) : RunOutcome :=
  match collectA with
  | .fatal e => .fatal e
  | .ret artifacts err =>
    match err with
    | some e => .fatal e
    | none => runWorkers collectV download artifacts []

/-! ## The `sync.WaitGroup` protocol of `main` -/

/-- An operation on a `sync.WaitGroup` counter. -/
inductive WgOp where
  | add (n : Nat)
  | done
  deriving Repr, DecidableEq

/-- `sync.WaitGroup` counter semantics: `Add n` increments the counter,
`Done` decrements it and panics if the counter is already zero (Go panics
with "sync: negative WaitGroup counter"; the panic is modelled as `none`),
and `Wait` returns as soon as the counter is zero. -/
def wgApply : Option Nat → WgOp → Option Nat
  | none, _ => none
  | some c, .add n => some (c + n)
  | some c, .done => if c = 0 then none else some (c - 1)

/-- Run a sequence of WaitGroup operations from the zero-initialised
counter (`wg := sync.WaitGroup{}`, src/main.go line 30). -/
def wgRun (ops : List WgOp) : Option Nat :=
  ops.foldl wgApply (some 0)

/-- `wg.Wait()` returns immediately exactly when the counter is zero. -/
def wgWaitReturnsImmediately : Option Nat → Bool
  | some c => c = 0
  | none => false

/-- The WaitGroup operations `main` performs between constructing `wg`
(src/main.go line 30) and calling `wg.Wait()` (line 63): none. The source
contains no `wg.Add` call anywhere; the only WaitGroup operations in the
program are the workers' deferred `wg.Done()` calls (line 35), which run
when a worker goroutine exits. -/
def mainWgOpsBeforeWait : List WgOp := []

/-! ## Auxiliary observers and test fixtures -/

/-- The error value a collect function returned, when it returned at all:
`some e` only for an outcome `ret xs (some e)`; `none` for a fatal abort,
for exhausted fuel, and for a nil-error return. -/
def returnedError {α : Type} : Option (CollectResult α × List Nat) → Option String
  | some (.ret _ e, _) => e
  | _ => none

/-- The offset trace an ideal offset-paginated crawl over a dataset of `N`
records produces from offset `start` with page size `P`: each request
advances by the page length `min P (N - start)`, and the final request (at
an offset past the data, which returns the empty page) is included. -/
def offsetsFrom (P N start : Nat) : List Nat :=
  if N ≤ start ∨ P = 0 then [start]
  else start :: offsetsFrom P N (start + min P (N - start))
termination_by N - start
decreasing_by
  rename_i h
  push_neg at h
  omega

/-- A list of `n` identical components (fixture). -/
def mkComponents (n : Nat) : List Component :=
  List.replicate n { data := "c" }

/-- A decoder that returns the same parse result for every body (fixture
standing in for the external decoder on a known body). -/
def decodeConst {α : Type} (r : Option α) : String → Option α :=
  fun _ => r

/-- A version-search document without the SBOM classifier tag (fixture). -/
def vDocPlain : VersionDoc :=
  { g := "com.example", a := "lib", v := "1.0.0", p := "jar", ec := [".jar"] }

/-- A version-search document carrying the SBOM classifier tag (fixture). -/
def vDocTagged : VersionDoc :=
  { g := "com.example", a := "lib", v := "2.0.0", p := "jar"
    ec := [".jar", "-cyclonedx.json"] }

/-- A sample versioned coordinate (fixture). -/
def sampleGAV : GAV :=
  { groupID := "com.example", artifactID := "lib", version := "2.0.0" }

/-- A sample artifact coordinate (fixture). -/
def sampleArtifact : Artifact :=
  { groupID := "com.example", artifactID := "lib", latestVersion := "2.0.0" }

/-! ## Helper lemmas -/

/-- `contains` is membership: it returns `true` exactly when the needle
occurs in the haystack. -/
theorem contains_eq_true_iff_mem (haystack : List String) (needle : String) :
    contains haystack needle = true ↔ needle ∈ haystack := by
  induction haystack with
  | nil => simp [contains]
  | cons candidate rest ih =>
    by_cases h : candidate = needle
    · simp [contains, h]
    · simp [contains, h, ih]
      exact fun hmem => (h hmem.symm).elim

/-- The classifier filter as a `filterMap`. -/
theorem searchVersionsFilter_eq_filterMap (docs : List VersionDoc) :
    searchVersionsFilter docs
      = docs.filterMap fun d =>
          if contains d.ec cdxClassifier then some (gavOfDoc d) else none := by
  induction docs with
  | nil => rfl
  | cons doc rest ih =>
    by_cases h : contains doc.ec cdxClassifier
    · simp [searchVersionsFilter, h, ih, List.filterMap_cons]
    · simp [searchVersionsFilter, h, ih, List.filterMap_cons]

/-- Dropping as many records as a page actually held is the same as dropping
a full page size. -/
theorem drop_length_take {α : Type} (l : List α) (n : Nat) :
    l.drop (l.take n).length = l.drop n := by
  rcases le_or_lt n l.length with h | h
  · rw [List.length_take, Nat.min_eq_left h]
  · rw [List.drop_eq_nil_of_le (le_of_lt h) , List.length_take,
      Nat.min_eq_right (le_of_lt h), List.drop_length]

/-- Unfolding equation for `offsetsFrom` in the crawling case. -/
theorem offsetsFrom_cons (P N start : Nat) (hP : 1 ≤ P) (h : start < N) :
    offsetsFrom P N start
      = start :: offsetsFrom P N (start + min P (N - start)) := by
  rw [offsetsFrom, if_neg]
  push_neg
  omega

/-- Unfolding equation for `offsetsFrom` once the data is exhausted. -/
theorem offsetsFrom_last (P N start : Nat) (h : N ≤ start) :
    offsetsFrom P N start = [start] := by
  rw [offsetsFrom]
  simp [h]

/-- Against a well-behaved server over a fixed dataset, the pagination loop
terminates (given fuel for one request per record plus the final empty
request), returns the accumulator followed by everything from the current
offset on, reports a nil error, and requests exactly the offsets
`offsetsFrom`. -/
theorem collectLoop_serverOf {α : Type} (P : Nat) (hP : 1 ≤ P)
    (full : List α) :
    ∀ (fuel start : Nat) (acc : List α) (offs : List Nat),
      full.length + 1 ≤ start + fuel → 1 ≤ fuel →
      collectLoop (serverOf full) P fuel start acc offs
        = some (.ret (acc ++ full.drop start) none,
            offs ++ offsetsFrom P full.length start) := by
  intro fuel
  induction fuel with
  | zero => intro start acc offs _ h1; omega
  | succ fuel ih =>
    intro start acc offs hfuel _
    rcases le_or_lt full.length start with hend | hmore
    · have hdrop : full.drop start = [] := List.drop_eq_nil_of_le hend
      have hpage : pageOf full P start = [] := by
        simp [pageOf, hdrop]
      simp [collectLoop, serverOf, hpage, hdrop, offsetsFrom_last P _ _ hend]
    · have hpagelen : (pageOf full P start).length = min P (full.length - start) := by
        simp [pageOf, List.length_take, List.length_drop]
      have hpagepos : 0 < (pageOf full P start).length := by omega
      have hrec := ih (start + (pageOf full P start).length)
        (acc ++ pageOf full P start) (offs ++ [start]) (by omega) (by omega)
      have happ : (acc ++ pageOf full P start)
          ++ full.drop (start + (pageOf full P start).length)
          = acc ++ full.drop start := by
        rw [List.append_assoc]
        congr 1
        have hdd : full.drop (start + (pageOf full P start).length)
            = (full.drop start).drop ((full.drop start).take P).length := by
          rw [List.drop_drop]
          congr 1
        rw [hdd, drop_length_take]
        exact List.take_append_drop P (full.drop start)
      have hoffs : offsetsFrom P full.length start
          = start :: offsetsFrom P full.length (start + (pageOf full P start).length) := by
        rw [offsetsFrom_cons P _ _ hP hmore, hpagelen]
      simp only [collectLoop, serverOf, if_neg (Nat.pos_iff_ne_zero.mp hpagepos)]
      rw [hrec, happ, hoffs]
      simp

/-- The pagination loop never returns a non-nil error: its only normal
return carries `nil` (search failures abort fatally inside the loop
instead). -/
theorem collectLoop_returnedError_none {α : Type}
    (search : Nat → Nat → Except String (List α)) (rows : Nat) :
    ∀ (fuel start : Nat) (acc : List α) (offs : List Nat),
      returnedError (collectLoop search rows fuel start acc offs) = none := by
  intro fuel
  induction fuel with
  | zero => intro start acc offs; rfl
  | succ fuel ih =>
    intro start acc offs
    rw [collectLoop]
    rcases hs : search rows start with e | g
    · rfl
    · by_cases hg : g.length = 0
      · simp [hg, returnedError]
      · simp [hg, ih]

/-- When every version collection succeeds with a nil error, the worker loop
completes, attempting every version of every artifact in order, whatever the
download outcomes are. -/
theorem runWorkers_all_ok (collectV : Artifact → CollectResult GAV)
    (download : GAV → DownloadResult) (versionsOf : Artifact → List GAV)
    (hV : ∀ a, collectV a = .ret (versionsOf a) none) :
    ∀ (artifacts : List Artifact) (acc : List (GAV × DownloadResult)),
      runWorkers collectV download artifacts acc
        = .completed (acc ++
            (artifacts.map fun a =>
              (versionsOf a).map fun v => (v, download v)).flatten) := by
  intro artifacts
  induction artifacts with
  | nil => intro acc; simp [runWorkers]
  | cons a rest ih =>
    intro acc
    rw [runWorkers, hV a]
    simp only [ih, List.map_cons, List.flatten_cons, List.append_assoc]

/-! ## Claim theorems -/

/-- C3: a GAV is produced as a download candidate by the version-search
stage if and only if the originating version record's extension-tag list
contains the string `"-cyclonedx.json"`; records lacking this tag never
contribute a candidate. -/
theorem searchVersions_candidate_iff_classifier (docs : List VersionDoc) (gav : GAV) :
    gav ∈ searchVersionsFilter docs ↔
      ∃ d ∈ docs, "-cyclonedx.json" ∈ d.ec ∧ gav = gavOfDoc d := by
  rw [searchVersionsFilter_eq_filterMap, List.mem_filterMap]
  constructor
  · rintro ⟨d, hd, hif⟩
    by_cases hc : contains d.ec cdxClassifier = true
    · refine ⟨d, hd, (contains_eq_true_iff_mem _ _).mp hc, ?_⟩
      rw [if_pos hc] at hif
      exact (Option.some_inj.mp hif).symm
    · rw [if_neg hc] at hif
      exact absurd hif (by simp)
  · rintro ⟨d, hd, hmem, rfl⟩
    refine ⟨d, hd, ?_⟩
    have hc : contains d.ec cdxClassifier = true :=
      (contains_eq_true_iff_mem _ _).mpr hmem
    rw [if_pos hc]

/-- C4: for every accepted GAV, the written file's contents are exactly the
downloaded response body, and its path is the output directory joined with
`<group>_<artifact>_<version>.cdx.json`. -/
theorem downloadSBOM_writes_raw_body
    (decodeBOM : String → Option BOM) (resp : HTTPResponse) (gav : GAV)
    (minComponents : Int) (outputDir : String) (sbom : BOM)
    (hdec : decodeBOM resp.body = some sbom)
    (hcount : minComponents ≤ componentCount sbom) :
    downloadSBOM decodeBOM resp gav minComponents outputDir
      = .written
          (filepathJoin outputDir
            (gav.groupID ++ "_" ++ gav.artifactID ++ "_" ++ gav.version ++ ".cdx.json"))
          resp.body := by
  simp [downloadSBOM, hdec, sbomFileName, if_neg (not_lt.mpr hcount)]

/-- Witness for C4 at a concrete input. -/
theorem downloadSBOM_writes_raw_body_witness :
    downloadSBOM (decodeConst (some { components := some (mkComponents 2) }))
        { statusCode := 200, body := "rawbody" } sampleGAV 1 "out"
      = .written
          (filepathJoin "out"
            (sampleGAV.groupID ++ "_" ++ sampleGAV.artifactID ++ "_"
              ++ sampleGAV.version ++ ".cdx.json"))
          "rawbody" :=
  downloadSBOM_writes_raw_body _ _ _ _ _ _ rfl (by decide)

/-- C5: with threshold `N`, a document with exactly `N` components is
accepted (a file is written) and a document with `N - 1` components is
rejected; in general a document with `N` components is accepted under
threshold `M` exactly when `M ≤ N` — the predicate is
`componentCount ≥ threshold`, inclusive on the accept side. -/
theorem downloadSBOM_threshold_boundary
    (decodeN decodeP : String → Option BOM) (rN rP : HTTPResponse)
    (gav : GAV) (dir : String) (N : Int) (cs cs' : List Component)
    (hdec : decodeN rN.body = some { components := some cs })
    (hdec' : decodeP rP.body = some { components := some cs' })
    (hlen : (cs.length : Int) = N)
    (hlen' : (cs'.length : Int) = N - 1) :
    (downloadSBOM decodeN rN gav N dir).writes
        = some (filepathJoin dir (sbomFileName gav), rN.body)
    ∧ downloadSBOM decodeP rP gav N dir = .discarded
    ∧ (∀ M : Int, (downloadSBOM decodeN rN gav M dir).writes ≠ none ↔ M ≤ N) := by
  have hcN : componentCount { components := some cs } = N := by
    simp [componentCount, hlen]
  have hcP : componentCount { components := some cs' } = N - 1 := by
    simp [componentCount, hlen']
  refine ⟨?_, ?_, ?_⟩
  · simp [downloadSBOM, hdec, hcN, DownloadResult.writes]
  · simp [downloadSBOM, hdec', hcP]
  · intro M
    by_cases hM : M ≤ N
    · simp [downloadSBOM, hdec, hcN, if_neg (not_lt.mpr hM), DownloadResult.writes, hM]
    · simp [downloadSBOM, hdec, hcN, if_pos (not_le.mp hM), DownloadResult.writes, hM]

/-- Witness for C5 at `N = 2`: two components accepted, one component
rejected. -/
theorem downloadSBOM_threshold_boundary_witness :
    (downloadSBOM (decodeConst (some { components := some (mkComponents 2) }))
        { statusCode := 200, body := "b2" } sampleGAV 2 "out").writes
      = some (filepathJoin "out" (sbomFileName sampleGAV), "b2")
    ∧ downloadSBOM (decodeConst (some { components := some (mkComponents 1) }))
        { statusCode := 200, body := "b1" } sampleGAV 2 "out" = .discarded
    ∧ (∀ M : Int,
        (downloadSBOM (decodeConst (some { components := some (mkComponents 2) }))
          { statusCode := 200, body := "b2" } sampleGAV M "out").writes ≠ none
        ↔ M ≤ 2) :=
  downloadSBOM_threshold_boundary _ _ _ _ _ _ _ _ _ rfl rfl (by decide) (by decide)

/-- C6: a decoded document whose component list is absent has effective
component count 0, so it is rejected under any positive threshold. -/
theorem downloadSBOM_nil_components_rejected
    (decodeBOM : String → Option BOM) (resp : HTTPResponse) (gav : GAV)
    (dir : String) (N : Int)
    (hdec : decodeBOM resp.body = some { components := none })
    (hN : 0 < N) :
    componentCount { components := none } = 0
    ∧ downloadSBOM decodeBOM resp gav N dir = .discarded := by
  refine ⟨rfl, ?_⟩
  simp [downloadSBOM, hdec, componentCount, hN]

/-- Witness for C6 at threshold 1. -/
theorem downloadSBOM_nil_components_rejected_witness :
    componentCount { components := none } = 0
    ∧ downloadSBOM (decodeConst (some { components := none }))
        { statusCode := 200, body := "b" } sampleGAV 1 "out" = .discarded :=
  downloadSBOM_nil_components_rejected _ _ _ _ _ rfl (by decide)

/-- C8: a decoded document below the threshold yields the `nil` return taken
at the discard branch — not an error — and no file is created or written. -/
theorem downloadSBOM_below_threshold_not_error_no_write
    (decodeBOM : String → Option BOM) (resp : HTTPResponse) (gav : GAV)
    (dir : String) (N : Int) (sbom : BOM)
    (hdec : decodeBOM resp.body = some sbom)
    (hlt : componentCount sbom < N) :
    downloadSBOM decodeBOM resp gav N dir = .discarded
    ∧ (downloadSBOM decodeBOM resp gav N dir).isError = false
    ∧ (downloadSBOM decodeBOM resp gav N dir).writes = none := by
  have h : downloadSBOM decodeBOM resp gav N dir = .discarded := by
    simp [downloadSBOM, hdec, hlt]
  exact ⟨h, by rw [h]; rfl, by rw [h]; rfl⟩

/-- Witness for C8: five components against a threshold of ten. -/
theorem downloadSBOM_below_threshold_not_error_no_write_witness :
    downloadSBOM (decodeConst (some { components := some (mkComponents 5) }))
        { statusCode := 200, body := "b" } sampleGAV 10 "out" = .discarded
    ∧ (downloadSBOM (decodeConst (some { components := some (mkComponents 5) }))
        { statusCode := 200, body := "b" } sampleGAV 10 "out").isError = false
    ∧ (downloadSBOM (decodeConst (some { components := some (mkComponents 5) }))
        { statusCode := 200, body := "b" } sampleGAV 10 "out").writes = none :=
  downloadSBOM_below_threshold_not_error_no_write _ _ _ _ _ _ rfl (by decide)

/-- C1 (failing evaluation): `collectVersions` advances its offset by the
length of the classifier-FILTERED page, not the raw page. On the two-record
dataset `[vDocPlain, vDocTagged]` (page size 150 as in the source) it
requests offsets 0, 1, 2 — not `0, 150, …` — and returns the tagged
version's GAV twice, while the classifier filter applied to the full result
set yields that GAV exactly once. So the returned sequence is not the
concatenation of the (filtered) pages of the full result set. -/
theorem collectVersions_filtered_offset_bug :
    collectVersions (serverOf [vDocPlain, vDocTagged]) 5
      = some (.ret [gavOfDoc vDocTagged, gavOfDoc vDocTagged] none, [0, 1, 2])
    ∧ searchVersionsFilter [vDocPlain, vDocTagged] = [gavOfDoc vDocTagged]
    ∧ collectVersions (serverOf [vDocPlain]) 5 = some (.ret [] none, [0]) := by
  refine ⟨by decide, by decide, by decide⟩

/-- C2 (counterexample): `downloadSBOM` returns no transport error for a
non-2xx response. At status 404 with a decodable body holding enough
components, it accepts the document and writes the file. -/
theorem downloadSBOM_no_status_check_counterexample :
    (404 < 200 ∨ 299 < 404)
    ∧ downloadSBOM (decodeConst (some { components := some (mkComponents 1) }))
        { statusCode := 404, body := "body" } sampleGAV 1 "out"
      = .written (filepathJoin "out" (sbomFileName sampleGAV)) "body"
    ∧ (downloadSBOM (decodeConst (some { components := some (mkComponents 1) }))
        { statusCode := 404, body := "body" } sampleGAV 1 "out").isError = false := by
  refine ⟨by decide, by decide, by decide⟩

/-- C2 (amended): `downloadSBOM` never inspects the response status — its
result on any non-200 status equals its result on status 200 with the same
body — while the searches (`searchArtifacts`, `searchVersions`) enforce the
status contract, returning a transport error for every status other
than 200. -/
theorem downloadSBOM_ignores_status_searches_enforce_200
    (decodeB : String → Option BOM)
    (decodeA : String → Option (List ArtifactDoc))
    (decodeV : String → Option (List VersionDoc))
    (s : Nat) (body : String) (gav : GAV) (minComponents : Int) (dir : String)
    (hs : s ≠ 200) :
    downloadSBOM decodeB { statusCode := s, body := body } gav minComponents dir
      = downloadSBOM decodeB { statusCode := 200, body := body } gav minComponents dir
    ∧ searchArtifactsRespond decodeA { statusCode := s, body := body }
        = .error ("unexpected status code: " ++ toString s)
    ∧ searchVersionsRespond decodeV { statusCode := s, body := body }
        = .error ("unexpected status code: " ++ toString s) := by
  refine ⟨rfl, ?_, ?_⟩ <;>
    simp [searchArtifactsRespond, searchVersionsRespond, searchRespond,
      Except.map, hs]

/-- Witness for the amended C2 at status 404. -/
theorem downloadSBOM_ignores_status_searches_enforce_200_witness :
    downloadSBOM (decodeConst (some { components := some (mkComponents 1) }))
        { statusCode := 404, body := "b" } sampleGAV 1 "out"
      = downloadSBOM (decodeConst (some { components := some (mkComponents 1) }))
          { statusCode := 200, body := "b" } sampleGAV 1 "out"
    ∧ searchArtifactsRespond (decodeConst none) { statusCode := 404, body := "b" }
        = .error ("unexpected status code: " ++ toString 404)
    ∧ searchVersionsRespond (decodeConst none) { statusCode := 404, body := "b" }
        = .error ("unexpected status code: " ++ toString 404) :=
  downloadSBOM_ignores_status_searches_enforce_200 _ _ _ _ _ _ _ _ (by decide)

/-- C7: the error-severity split of the coordinator. A fatal during artifact
collection, a non-nil error returned by artifact collection, and a fatal
during any worker's version collection each terminate the whole run; when
every collection succeeds, the run completes and every version of every
artifact is attempted in order, whatever each download returns. -/
theorem run_error_severity_split
    (collectV : Artifact → CollectResult GAV) (download : GAV → DownloadResult)
    (artifacts : List Artifact) (versionsOf : Artifact → List GAV)
    (e : String) (a₀ : Artifact) (rest : List Artifact)
    (hV : ∀ a, collectV a = .ret (versionsOf a) none) :
    runMain (.fatal e) collectV download = .fatal e
    ∧ runMain (.ret artifacts (some e)) collectV download = .fatal e
    ∧ runWorkers (fun _ => .fatal e) download (a₀ :: rest) [] = .fatal e
    ∧ runMain (.ret artifacts none) collectV download
        = .completed
            ((artifacts.map fun a =>
              (versionsOf a).map fun v => (v, download v)).flatten) := by
  refine ⟨rfl, rfl, rfl, ?_⟩
  have h := runWorkers_all_ok collectV download versionsOf hV artifacts []
  simpa [runMain] using h

/-- Witness for C7: one artifact whose single version's download fails with
an error; the run still completes with that attempt recorded. -/
theorem run_error_severity_split_witness :
    runMain (.fatal "x") (fun _ => .ret [sampleGAV] none) (fun _ => .err "boom")
        = .fatal "x"
    ∧ runMain (.ret [sampleArtifact] (some "x")) (fun _ => .ret [sampleGAV] none)
        (fun _ => .err "boom") = .fatal "x"
    ∧ runWorkers (fun _ => .fatal "x") (fun _ => .err "boom")
        (sampleArtifact :: []) [] = .fatal "x"
    ∧ runMain (.ret [sampleArtifact] none) (fun _ => .ret [sampleGAV] none)
        (fun _ => .err "boom")
        = .completed
            (([sampleArtifact].map fun _ =>
              [sampleGAV].map fun v => (v, DownloadResult.err "boom")).flatten) :=
  run_error_severity_split (fun _ => .ret [sampleGAV] none) (fun _ => .err "boom")
    [sampleArtifact] (fun _ => [sampleGAV]) "x" sampleArtifact [] (fun _ => rfl)

/-- C9 (failing evaluation): `main` performs no `wg.Add` before `wg.Wait()`,
so the WaitGroup counter is still zero when `Wait` runs: `Wait` returns
immediately (it does not wait for any worker), and the first deferred
`wg.Done()` a worker executes panics the zero counter. -/
theorem main_waitgroup_never_waits :
    wgRun mainWgOpsBeforeWait = some 0
    ∧ wgWaitReturnsImmediately (wgRun mainWgOpsBeforeWait) = true
    ∧ wgApply (wgRun mainWgOpsBeforeWait) .done = none := by
  refine ⟨rfl, rfl, rfl⟩

/-- C10: neither collect function ever returns a non-nil error — a failed
search aborts the process fatally inside the loop instead — so the error
branches at their call sites in `main` and the worker loop can never be
taken. -/
theorem collect_functions_never_return_error
    (searchA : Nat → Nat → Except String (List Artifact))
    (serverDocs : Nat → Nat → Except String (List VersionDoc)) (fuel : Nat) :
    returnedError (collectArtifacts searchA fuel) = none
    ∧ returnedError (collectVersions serverDocs fuel) = none :=
  ⟨collectLoop_returnedError_none _ _ _ _ _ _,
   collectLoop_returnedError_none _ _ _ _ _ _⟩

/-- `collectArtifacts` — whose page result is the raw server page —
paginates correctly against a well-behaved server: with enough fuel it
returns the full dataset with a nil error, requesting the `offsetsFrom`
trace. (`collectVersions` fails this; see
`collectVersions_filtered_offset_bug`.) -/
theorem collectArtifacts_pagination_correct (full : List Artifact) (fuel : Nat)
    (hfuel : full.length + 1 ≤ fuel) :
    collectArtifacts (serverOf full) fuel
      = some (.ret full none, offsetsFrom 150 full.length 0) := by
  have h := collectLoop_serverOf 150 (by omega) full fuel 0 [] []
    (by omega) (by omega)
  simpa [collectArtifacts] using h

/-- The ideal crawl's `i`-th requested offset is `i * P`, clamped at the
dataset size: offsets `0, P, 2P, …` until the final (empty-page) request at
offset `N`. -/
theorem offsetsFrom_get (P : Nat) (hP : 1 ≤ P) (N : Nat) :
    ∀ (k start : Nat), N - start ≤ k → start ≤ N →
      ∀ (i : Nat), i < (offsetsFrom P N start).length →
        (offsetsFrom P N start).get? i = some (min (start + i * P) N) := by
  intro k
  induction k with
  | zero =>
    intro start hk hle i h
    have hstart : start = N := by omega
    rw [offsetsFrom_last P N start (by omega)] at h ⊢
    have hi : i = 0 := by
      simp only [List.length_singleton] at h
      omega
    subst hi
    simp
    omega
  | succ k ih =>
    intro start hk hle i h
    rcases eq_or_lt_of_le hle with heq | hlt
    · rw [offsetsFrom_last P N start (by omega)] at h ⊢
      have hi : i = 0 := by
        simp only [List.length_singleton] at h
        omega
      subst hi
      simp
      omega
    · rw [offsetsFrom_cons P N start hP hlt] at h ⊢
      cases i with
      | zero =>
        simp only [List.get?_cons_zero, Nat.zero_mul, Nat.add_zero,
          Option.some_inj]
        omega
      | succ i =>
        simp only [List.get?_cons_succ]
        simp only [List.length_cons] at h
        have hrec := ih (start + min P (N - start)) (by omega) (by omega) i
          (by omega)
        rw [hrec, Nat.succ_mul]
        rcases le_or_lt P (N - start) with hc | hc
        · rw [Nat.min_eq_left hc]
          congr 1
          omega
        · rw [Nat.min_eq_right (le_of_lt hc)]
          congr 1
          omega

end CdxCentral
